import Mathlib

/-!
# Verification of the file-brain crawl engine against its specification

A shallow embedding, in Lean 4, of the parts of the `file-brain` repository
that the specification's claims are about:

* the key-deduplicating operation queue (`services/crawler/queue.py`),
* the index verifier's scope check (`services/crawler/verification.py`),
* the crawl manager's status snapshot and queue-worker counting
  (`services/crawler/manager.py`),
* the search-engine client (`src/services/typesense_client.py`),
* the file indexer (`services/crawler/indexer.py`),
* the extraction chain and the Tika strategy
  (`services/extraction/extractor.py`,
  `file_brain/services/extraction/tika_strategy.py`).

Python `dict`s are modelled as insertion-ordered association lists, the
`asyncio.Queue` of keys as a list (head = front), machine integers as `Nat`
or `Int` (the counters in question are never negative), and OS / library
calls (stat, hashing, MIME guessing, the Tika HTTP calls) as explicit
environment functions.  Each queue operation holds the queue's `asyncio.Lock`
for its whole body, so operations are modelled as atomic pure state
transformers and concurrent histories as their sequential interleavings.
-/

namespace FileBrain

/-! ## Python dict primitives

`dictLookup`, `dictSet`, `dictPop` model `d.get(k)` lookup, `d[k] = v`
assignment (replace in place, or append when the key is fresh) and `d.pop(k)`
on an insertion-ordered association list whose keys are unique (as in a
`dict`). -/

def dictLookup {T : Type} (items : List (String × T)) (key : String) : Option T :=
  match items with
  | [] => none
  | (k, v) :: rest => if k = key then some v else dictLookup rest key

def dictSet {T : Type} (items : List (String × T)) (key : String) (item : T) :
    List (String × T) :=
  match items with
  | [] => [(key, item)]
  | (k, v) :: rest => if k = key then (key, item) :: rest else (k, v) :: dictSet rest key item

def dictPop {T : Type} (items : List (String × T)) (key : String) : List (String × T) :=
  match items with
  | [] => []
  | (k, v) :: rest => if k = key then rest else (k, v) :: dictPop rest key

theorem dictLookup_eq_none {T : Type} {items : List (String × T)} {key : String} :
    dictLookup items key = none ↔ key ∉ items.map Prod.fst := by
  induction items with
  | nil => simp [dictLookup]
  | cons p tl ih =>
    obtain ⟨k, v⟩ := p
    by_cases h : k = key
    · subst h; simp [dictLookup]
    · simp [dictLookup, h, ih, Ne.symm h]

theorem dictLookup_isSome {T : Type} {items : List (String × T)} {key : String} :
    (dictLookup items key).isSome = true ↔ key ∈ items.map Prod.fst := by
  constructor
  · intro h
    by_contra hmem
    rw [dictLookup_eq_none.mpr hmem] at h
    simp at h
  · intro hmem
    cases hl : dictLookup items key with
    | none => exact absurd (dictLookup_eq_none.mp hl) (by simp [hmem])
    | some v => simp

theorem dictLookup_dictSet_self {T : Type} (items : List (String × T))
    (key : String) (item : T) :
    dictLookup (dictSet items key item) key = some item := by
  induction items with
  | nil => simp [dictSet, dictLookup]
  | cons p tl ih =>
    obtain ⟨k, v⟩ := p
    by_cases h : k = key
    · simp [dictSet, h, dictLookup]
    · simp [dictSet, h, dictLookup, ih]

theorem map_fst_dictSet_mem {T : Type} {items : List (String × T)} {key : String}
    (item : T) (h : key ∈ items.map Prod.fst) :
    (dictSet items key item).map Prod.fst = items.map Prod.fst := by
  induction items with
  | nil => simp at h
  | cons p tl ih =>
    obtain ⟨k, v⟩ := p
    by_cases hk : k = key
    · simp [dictSet, hk]
    · have hmem : key ∈ tl.map Prod.fst := by
        simp only [List.map_cons, List.mem_cons] at h
        exact h.resolve_left (fun hh => hk hh.symm)
      simp [dictSet, hk, ih hmem]

theorem dictSet_of_not_mem {T : Type} {items : List (String × T)} {key : String}
    (item : T) (h : key ∉ items.map Prod.fst) :
    dictSet items key item = items ++ [(key, item)] := by
  induction items with
  | nil => rfl
  | cons p tl ih =>
    obtain ⟨k, v⟩ := p
    simp only [List.map_cons, List.mem_cons] at h
    push_neg at h
    have hk : ¬k = key := fun hh => h.1 hh.symm
    simp [dictSet, hk, ih h.2]

theorem dictPop_map_fst {T : Type} {items : List (String × T)} {key : String}
    {rest : List String} (h : items.map Prod.fst = key :: rest) :
    (dictPop items key).map Prod.fst = rest := by
  cases items with
  | nil => simp at h
  | cons p tl =>
    obtain ⟨k, v⟩ := p
    simp at h
    obtain ⟨rfl, h2⟩ := h
    simpa [dictPop] using h2

/-! ## Dedup queue (`services/crawler/queue.py`)

State of a `DedupQueue`: `queue` is the internal `asyncio.Queue` of keys
(head of the list = front of the queue) and `items` is the `_items` dict.
`put` and `get` hold `_lock` for their whole body, so each is one atomic
state transformer. -/

structure DedupQueue (T : Type) where
  queue : List String
  items : List (String × T)

/-- `DedupQueue.put` (queue.py lines 19-43): record/replace the payload under
`key`; push `key` to the FIFO only when the key was not already pending. -/
def DedupQueue.put {T : Type} (q : DedupQueue T) (key : String) (item : T) : DedupQueue T :=
  let is_new := (dictLookup q.items key).isNone
  { queue := if is_new then q.queue ++ [key] else q.queue
    items := dictSet q.items key item }

/-- `DedupQueue.get` (queue.py lines 45-56): dequeue the front key and pop its
payload from `_items`.  `none` models both blocking on an empty queue and the
`KeyError` the dict `pop` would raise if the key were absent (shown unreachable
below). -/
def DedupQueue.get {T : Type} (q : DedupQueue T) : Option (T × DedupQueue T) :=
  match q.queue with
  | [] => none
  | key :: rest =>
    match dictLookup q.items key with
    | none => none
    | some item => some (item, ⟨rest, dictPop q.items key⟩)

/-- `DedupQueue.qsize` (queue.py lines 61-62): `len(self._items)`. -/
def DedupQueue.qsize {T : Type} (q : DedupQueue T) : Nat :=
  q.items.length

def DedupQueue.empty {T : Type} : DedupQueue T := ⟨[], []⟩

/-- A producer/consumer history: every operation ever applied to the queue. -/
inductive QOp (T : Type)
  | put (key : String) (item : T)
  | get

/-- One atomic operation.  A `get` on an empty queue waits (no state change in
a sequential history). -/
def DedupQueue.step {T : Type} (q : DedupQueue T) : QOp T → DedupQueue T
  | .put key item => q.put key item
  | .get =>
    match q.get with
    | some (_, q2) => q2
    | none => q

def DedupQueue.run {T : Type} (ops : List (QOp T)) : DedupQueue T :=
  ops.foldl DedupQueue.step DedupQueue.empty

/-- The queue's internal invariant: the pending keys in the FIFO are exactly
the keys of `_items`, in the same order, with no duplicates. -/
def DedupQueue.Inv {T : Type} (q : DedupQueue T) : Prop :=
  q.items.map Prod.fst = q.queue ∧ q.queue.Nodup

theorem DedupQueue.Inv.put {T : Type} {q : DedupQueue T} (h : q.Inv)
    (key : String) (item : T) : (q.put key item).Inv := by
  obtain ⟨hmap, hnd⟩ := h
  cases hl : dictLookup q.items key with
  | none =>
    have hfst : key ∉ q.items.map Prod.fst := dictLookup_eq_none.mp hl
    have hmem : key ∉ q.queue := by rw [← hmap]; exact hfst
    constructor
    · simp [DedupQueue.put, hl, dictSet_of_not_mem item hfst, hmap]
    · simp [DedupQueue.put, hl, List.nodup_append, hnd, hmem]
  | some v =>
    have hfst : key ∈ q.items.map Prod.fst := dictLookup_isSome.mp (by simp [hl])
    constructor
    · simp [DedupQueue.put, hl, map_fst_dictSet_mem item hfst, hmap]
    · simp [DedupQueue.put, hl, hnd]

theorem DedupQueue.Inv.get {T : Type} {q : DedupQueue T} (h : q.Inv)
    {item : T} {q2 : DedupQueue T} (hg : q.get = some (item, q2)) : q2.Inv := by
  obtain ⟨hmap, hnd⟩ := h
  cases hq : q.queue with
  | nil => simp [DedupQueue.get, hq] at hg
  | cons key rest =>
    rw [hq] at hmap hnd
    cases hl : dictLookup q.items key with
    | none => simp [DedupQueue.get, hq, hl] at hg
    | some v =>
      simp [DedupQueue.get, hq, hl] at hg
      obtain ⟨rfl, rfl⟩ := hg
      exact ⟨dictPop_map_fst hmap, hnd.of_cons⟩

theorem DedupQueue.Inv.step {T : Type} {q : DedupQueue T} (h : q.Inv)
    (op : QOp T) : (q.step op).Inv := by
  cases op with
  | put key item => exact h.put key item
  | get =>
    unfold DedupQueue.step
    cases hg : q.get with
    | none => exact h
    | some pr =>
      obtain ⟨item, q2⟩ := pr
      exact h.get hg

theorem DedupQueue.Inv_run {T : Type} (ops : List (QOp T)) :
    (DedupQueue.run ops).Inv := by
  suffices h : ∀ q : DedupQueue T, q.Inv → (ops.foldl DedupQueue.step q).Inv from
    h _ ⟨rfl, List.nodup_nil⟩
  induction ops with
  | nil => exact fun q h => h
  | cons op rest ih => exact fun q h => ih _ (h.step op)

/-- **C9.** Invariant of the dedup queue kept by every `put` and `get`: between
operations, the keys in the internal FIFO are exactly the keys of the payload
map, each occurring once; hence `qsize()` equals the number of keys waiting in
the FIFO and `get()` always finds the key it dequeues in the map (its `pop`
cannot raise). -/
theorem dedupQueue_fifo_matches_items (T : Type) (ops : List (QOp T)) :
    (DedupQueue.run ops).items.map Prod.fst = (DedupQueue.run ops).queue
    ∧ (DedupQueue.run ops).queue.Nodup
    ∧ (DedupQueue.run ops).qsize = (DedupQueue.run ops).queue.length
    ∧ ((DedupQueue.run ops).queue ≠ [] → ((DedupQueue.run ops).get).isSome = true) := by
  obtain ⟨hmap, hnd⟩ := DedupQueue.Inv_run (T := T) ops
  refine ⟨hmap, hnd, ?_, ?_⟩
  · unfold DedupQueue.qsize
    rw [← hmap, List.length_map]
  · intro hne
    cases hq : (DedupQueue.run ops).queue with
    | nil => exact absurd hq hne
    | cons key rest =>
      have hk : key ∈ (DedupQueue.run ops).items.map Prod.fst := by
        rw [hmap, hq]; simp
      cases hl : dictLookup (DedupQueue.run ops).items key with
      | none => exact absurd (dictLookup_eq_none.mp hl) (by simp [hk])
      | some item => simp [DedupQueue.get, hq, hl]

/-- **C9 witness.** -/
theorem dedupQueue_fifo_matches_items_witness :
    ((DedupQueue.run [QOp.put "a" (1 : Nat)]).get).isSome = true :=
  (dedupQueue_fifo_matches_items Nat [QOp.put "a" 1]).2.2.2 (by decide)

/-- **C1.** In every sequential history of `put`/`get` operations (each made
atomic by the queue's lock): the number of pending entries with a given key is
0 or 1; a `put(k, item2)` while `k` is pending replaces the payload without
changing the FIFO at all (so `k`'s position is unchanged); and a consumer's
`get` dequeues the front of the FIFO, which orders keys by their first
publish. -/
theorem dedupQueue_replace_in_place (T : Type) (ops : List (QOp T))
    (k : String) (item2 : T) :
    ((DedupQueue.run ops).queue.count k ≤ 1)
    ∧ ((dictLookup (DedupQueue.run ops).items k).isSome = true →
        ((DedupQueue.run ops).put k item2).queue = (DedupQueue.run ops).queue
        ∧ dictLookup ((DedupQueue.run ops).put k item2).items k = some item2)
    ∧ (∀ key rest, (DedupQueue.run ops).queue = key :: rest →
        ∃ item, dictLookup (DedupQueue.run ops).items key = some item
          ∧ (DedupQueue.run ops).get
              = some (item, ⟨rest, dictPop (DedupQueue.run ops).items key⟩)) := by
  obtain ⟨hmap, hnd⟩ := DedupQueue.Inv_run (T := T) ops
  refine ⟨List.nodup_iff_count_le_one.mp hnd k, ?_, ?_⟩
  · intro hs
    cases hl : dictLookup (DedupQueue.run ops).items k with
    | none => rw [hl] at hs; simp at hs
    | some v =>
      constructor
      · simp [DedupQueue.put, hl]
      · simp [DedupQueue.put, dictLookup_dictSet_self]
  · intro key rest hq
    have hk : key ∈ (DedupQueue.run ops).items.map Prod.fst := by
      rw [hmap, hq]; simp
    cases hl : dictLookup (DedupQueue.run ops).items key with
    | none => exact absurd (dictLookup_eq_none.mp hl) (by simp [hk])
    | some item => exact ⟨item, rfl, by simp [DedupQueue.get, hq, hl]⟩

/-- **C1 witness.** -/
theorem dedupQueue_replace_in_place_witness :
    ((DedupQueue.run [QOp.put "a" (1 : Nat), QOp.put "b" 2]).put "a" 7).queue
        = (DedupQueue.run [QOp.put "a" (1 : Nat), QOp.put "b" 2]).queue
    ∧ dictLookup ((DedupQueue.run [QOp.put "a" (1 : Nat), QOp.put "b" 2]).put "a" 7).items "a"
        = some 7 :=
  (dedupQueue_replace_in_place Nat [QOp.put "a" 1, QOp.put "b" 2] "a" 7).2.1 (by decide)

/-! ### C8: is the dedup queue bounded?

`DedupQueue.__init__` (queue.py lines 14-17) creates `asyncio.Queue()` with no
`maxsize` and takes no capacity argument, so nothing caps the number of
pending entries and `put` never blocks for backpressure. -/

/-- `n` pairwise distinct keys ("a", "aa", "aaa", ...). -/
def keyN (n : Nat) : String := String.mk (List.replicate (n + 1) 'a')

/-- Publish `n` operations under `n` distinct keys into a fresh queue. -/
def DedupQueue.putN (n : Nat) : DedupQueue Unit :=
  (List.range n).foldl (fun q i => q.put (keyN i) ()) DedupQueue.empty

theorem keyN_inj {i j : Nat} (h : keyN i = keyN j) : i = j := by
  have hlen := congrArg (fun s => s.data.length) h
  simpa [keyN] using hlen

theorem DedupQueue.putN_items (n : Nat) :
    (DedupQueue.putN n).items = (List.range n).map (fun i => (keyN i, ()))
      ∧ (DedupQueue.putN n).queue = (List.range n).map keyN := by
  induction n with
  | zero => exact ⟨rfl, rfl⟩
  | succ m ih =>
    obtain ⟨hi, hq⟩ := ih
    have hfold : DedupQueue.putN (m + 1) = (DedupQueue.putN m).put (keyN m) () := by
      unfold DedupQueue.putN
      rw [List.range_succ, List.foldl_append]
      rfl
    have hfst : keyN m ∉ ((List.range m).map fun i => (keyN i, ())).map Prod.fst := by
      rw [List.map_map]
      intro hmem
      simp only [Function.comp, List.mem_map, List.mem_range] at hmem
      obtain ⟨j, hj, hkey⟩ := hmem
      exact absurd (keyN_inj hkey) (Nat.ne_of_lt hj)
    have hnone : dictLookup (DedupQueue.putN m).items (keyN m) = none := by
      rw [hi]
      exact dictLookup_eq_none.mpr hfst
    rw [hfold]
    constructor
    · simp [DedupQueue.put, hnone, hi, dictSet_of_not_mem () hfst, List.range_succ]
    · simp [DedupQueue.put, hnone, hq, List.range_succ]

/-- Helper shared by the C8 theorem and counterexample: after `n` puts of
distinct keys, `qsize()` is `n`. -/
theorem DedupQueue.qsize_putN (n : Nat) : (DedupQueue.putN n).qsize = n := by
  unfold DedupQueue.qsize
  rw [(DedupQueue.putN_items n).1]
  simp

/-- **C8 counterexample.** The claim says `qsize()` never exceeds the
configured cap `worker_queue_size` (default 1000).  But after 1001 `put`s of
distinct keys — none of which can block, `put` being a total state
transformer — `qsize()` is 1001 > 1000. -/
theorem dedupQueue_cap_counterexample : 1000 < (DedupQueue.putN 1001).qsize := by
  rw [DedupQueue.qsize_putN]
  decide

/-- **C8 (amended).** The dedup queue is unbounded: `__init__` creates an
uncapped `asyncio.Queue` and takes no capacity argument, `put` never blocks
for backpressure, and `qsize()` reaches any `n` after `n` puts of distinct
keys. -/
theorem dedupQueue_unbounded (n : Nat) : (DedupQueue.putN n).qsize = n :=
  DedupQueue.qsize_putN n

/-! ## Index verifier scope check (`services/crawler/verification.py`)

`verify_index` (lines 98-141) decides, per chunk-0 document, whether its
`file_path` is collected for removal.  `os.path.normpath` is modelled as the
identity: all paths are taken in normalized form with `/` as the separator. -/

/-- Python `str.startswith`, on the character sequence of the string. -/
def pyStartsWith (s pre : String) : Bool :=
  pre.data.isPrefixOf s.data

/-- `os.sep` on the platform the paths use. -/
def osSep : String := "/"

/-- verification.py lines 127-131: the exclusion check, which IS
separator-aware (`norm_file_path == exp or norm_file_path.startswith(exp + os.sep)`). -/
def isExcludedFile (excluded_paths : List String) (norm_file_path : String) : Bool :=
  excluded_paths.any fun exp =>
    norm_file_path == exp || pyStartsWith norm_file_path (exp ++ osSep)

/-- verification.py lines 119-135: the `for wp in included_paths` loop.  The
first included path that is a **plain string prefix** of the file path decides
(then the loop `break`s); the file is valid iff additionally no excluded
subtree matches. -/
def isValidPath (excluded_paths : List String) (norm_file_path : String) :
    List String → Bool
  | [] => false
  | wp_path :: rest =>
    if pyStartsWith norm_file_path wp_path then !isExcludedFile excluded_paths norm_file_path
    else isValidPath excluded_paths norm_file_path rest

/-- verification.py lines 98-141: a chunk-0 document's path is collected for
removal iff it no longer exists on disk, or fails the scope check. -/
def shouldCollect (exists_on_disk : String → Bool)
    (included_paths excluded_paths : List String) (file_path : String) : Bool :=
  if !exists_on_disk file_path then true
  else !isValidPath excluded_paths file_path included_paths

/-- verification.py lines 87-101: documents whose `file_path` is falsy (empty)
are skipped by `continue`; the rest go through `shouldCollect`. -/
def collectOrphanedPaths (exists_on_disk : String → Bool)
    (included_paths excluded_paths : List String) (docs : List String) : List String :=
  docs.filter fun fp =>
    !(fp == "") && shouldCollect exists_on_disk included_paths excluded_paths fp

/-- The spec's separator-aware ancestor test: `A` is an ancestor of `B` iff
`B == A` or `B` starts with `A + separator`. -/
def isAncestor (a b : String) : Bool :=
  b == a || pyStartsWith b (a ++ osSep)

/-- The claim's in-scope predicate: some included root is an ancestor of the
path and no excluded subtree is, both via the separator-aware test. -/
def inScopeSpec (included_paths excluded_paths : List String) (file_path : String) : Bool :=
  (included_paths.any fun r => isAncestor r file_path)
    && !(excluded_paths.any fun e => isAncestor e file_path)

/-- The claim's collection rule: collect iff missing on disk or not in scope
(separator-aware inclusion test). -/
def shouldCollectSpec (exists_on_disk : String → Bool)
    (included_paths excluded_paths : List String) (file_path : String) : Bool :=
  !exists_on_disk file_path || !inScopeSpec included_paths excluded_paths file_path

/-- **C5 counterexample.** File `/r/ab.txt` exists on disk; the only included
root is `/r/a` and nothing is excluded.  `/r/a` is *not* a separator-aware
ancestor of `/r/ab.txt`, so the claim says the document is collected for
removal; but the code's inclusion test is a plain `startswith`, accepts it,
and does not collect it. -/
theorem verifier_scope_counterexample :
    shouldCollect (fun p => p == "/r/ab.txt") ["/r/a"] [] "/r/ab.txt" = false
      ∧ shouldCollectSpec (fun p => p == "/r/ab.txt") ["/r/a"] [] "/r/ab.txt" = true := by
  constructor <;> decide

theorem isValidPath_iff (excluded_paths : List String) (fp : String)
    (included_paths : List String) :
    isValidPath excluded_paths fp included_paths = true ↔
      (∃ wp ∈ included_paths, pyStartsWith fp wp = true)
        ∧ isExcludedFile excluded_paths fp = false := by
  induction included_paths with
  | nil => simp [isValidPath]
  | cons wp rest ih =>
    by_cases h : pyStartsWith fp wp = true
    · constructor
      · intro hv
        rw [isValidPath, if_pos h] at hv
        exact ⟨⟨wp, List.mem_cons_self _ _, h⟩, by simpa using hv⟩
      · rintro ⟨-, hexf⟩
        rw [isValidPath, if_pos h]
        simp [hexf]
    · rw [isValidPath, if_neg h, ih]
      constructor
      · rintro ⟨⟨w, hw, hsw⟩, hexf⟩
        exact ⟨⟨w, List.mem_cons_of_mem _ hw, hsw⟩, hexf⟩
      · rintro ⟨⟨w, hw, hsw⟩, hexf⟩
        rcases List.mem_cons.mp hw with heq | hw2
        · subst heq
          exact absurd hsw h
        · exact ⟨⟨w, hw2, hsw⟩, hexf⟩

/-- **C5 (amended).** The verifier collects a chunk-0 document exactly when its
`file_path` (a) no longer exists on disk, or (b) fails the scope check, where
the *inclusion* test is a plain string-prefix `startswith` (NOT
separator-aware: a root `/r/a` also covers `/r/ab.txt`), and only the
*exclusion* test is the separator-aware `B == A or B.startswith(A + sep)`. -/
theorem verifier_collects_iff (exists_on_disk : String → Bool)
    (included_paths excluded_paths : List String) (file_path : String) :
    shouldCollect exists_on_disk included_paths excluded_paths file_path = true ↔
      exists_on_disk file_path = false
        ∨ (∀ wp ∈ included_paths, pyStartsWith file_path wp = false)
        ∨ isExcludedFile excluded_paths file_path = true := by
  cases hex : exists_on_disk file_path with
  | false =>
    have hsc : shouldCollect exists_on_disk included_paths excluded_paths file_path = true := by
      unfold shouldCollect
      rw [hex]
      rfl
    simp [hsc, hex]
  | true =>
    have hsc : shouldCollect exists_on_disk included_paths excluded_paths file_path
        = !isValidPath excluded_paths file_path included_paths := by
      unfold shouldCollect
      rw [hex]
      rfl
    rw [hsc]
    cases hvp : isValidPath excluded_paths file_path included_paths with
    | true =>
      simp only [Bool.not_true]
      constructor
      · intro h
        exact absurd h (by simp)
      · rintro (hfalse | hall | hexc)
        · exact absurd hfalse (by simp)
        · obtain ⟨⟨w, hw, hsw⟩, -⟩ := (isValidPath_iff _ _ _).mp hvp
          rw [hall w hw] at hsw
          exact absurd hsw (by simp)
        · obtain ⟨-, hexf⟩ := (isValidPath_iff _ _ _).mp hvp
          rw [hexc] at hexf
          exact absurd hexf (by simp)
    | false =>
      simp only [Bool.not_false]
      constructor
      · intro _
        cases hexc : isExcludedFile excluded_paths file_path with
        | true => exact Or.inr (Or.inr rfl)
        | false =>
          refine Or.inr (Or.inl fun wp hwp => ?_)
          cases hsw : pyStartsWith file_path wp with
          | false => rfl
          | true =>
            have hvt := (isValidPath_iff excluded_paths file_path included_paths).mpr
              ⟨⟨wp, hwp, hsw⟩, hexc⟩
            rw [hvt] at hvp
            exact absurd hvp (by simp)
      · intro _
        trivial

/-! ## Crawl manager status and counting (`services/crawler/manager.py`)

The progress dataclasses live in `services/crawler/progress.py`, which is not
part of the source snapshot; their fields are modelled from every use in
`manager.py` (they are plain counter records).  Counters are `Nat`: they
start at 0 and are only ever incremented.

Every percentage in the source is `int((x / y) * 100)`, where `x / y` is
CPython's correctly-rounded IEEE binary64 true division of the two ints and
`* 100` a binary64 multiplication.  This is modelled exactly below
(`int_div_mul100`): round to nearest, ties to even, applied to the exact
rational operands, in pure integer arithmetic.  Overflow and subnormals are
not modelled — the intermediate values lie far inside the normal double
range. -/

/-- Round the nonnegative rational `a / b` (`b ≠ 0`) to the nearest integer,
ties to even — the core step of IEEE round-to-nearest-even. -/
def natRoundHalfEven (a b : Nat) : Nat :=
  let f := a / b
  let r2 := 2 * (a % b)
  if r2 < b then f
  else if b < r2 then f + 1
  else if f % 2 = 0 then f else f + 1

/-- `⌊log₂ n⌋`, with explicit fuel so that the kernel can evaluate it. -/
def natLog2Aux : Nat → Nat → Nat
  | 0, _ => 0
  | fuel + 1, n => if 2 ≤ n then natLog2Aux fuel (n / 2) + 1 else 0

def natLog2 (n : Nat) : Nat := natLog2Aux n n

/-- The binade of the positive rational `a / b`: the unique `e : ℤ` with
`2 ^ e ≤ a / b < 2 ^ (e + 1)`. -/
def ratExponent (a b : Nat) : Int :=
  let d : Int := (natLog2 a : Int) - (natLog2 b : Int)
  if 0 ≤ d then (if a < b * 2 ^ d.toNat then d - 1 else d)
  else (if a * 2 ^ (-d).toNat < b then d - 1 else d)

/-- The nonnegative rational `a / b` rounded to the nearest IEEE binary64
double (round to nearest, ties to even), returned exactly as a
numerator/denominator pair: the double is `m * 2 ^ e` with a 53-bit mantissa
`m = natRoundHalfEven (a / (b * 2 ^ e))` at `e = ratExponent a b - 52`. -/
def roundB64 (a b : Nat) : Nat × Nat :=
  if a = 0 then (0, 1)
  else
    let e : Int := ratExponent a b - 52
    if 0 ≤ e then (natRoundHalfEven a (b * 2 ^ e.toNat) * 2 ^ e.toNat, 1)
    else (natRoundHalfEven (a * 2 ^ (-e).toNat) b, 2 ^ (-e).toNat)

/-- `int((num / den) * 100)` as CPython evaluates it for nonnegative ints
(manager.py lines 93, 119, 126, 144): correctly-rounded binary64 division of
the exact integer ratio, binary64 multiplication by the exact double `100.0`
(correct rounding of the exact product), then `int()` truncation (= floor,
the values being nonnegative).  Every call site guards `den > 0`. -/
def int_div_mul100 (num den : Nat) : Nat :=
  if den = 0 then 0
  else
    let q := roundB64 num den
    let p := roundB64 (q.1 * 100) q.2
    p.1 / p.2

/-- Modelled from the spec and the uses in manager.py: discovery counters. -/
structure DiscoveryProgress where
  total_paths : Nat := 0
  processed_paths : Nat := 0
  files_found : Nat := 0
  files_skipped : Nat := 0

/-- Modelled from the spec and the uses in manager.py: indexing counters. -/
structure IndexingProgress where
  files_to_index : Nat := 0
  files_indexed : Nat := 0
  files_failed : Nat := 0

/-- `VerificationProgress` (verification.py lines 16-25). -/
structure VerificationProgress where
  total_indexed : Nat := 0
  processed_count : Nat := 0
  orphaned_count : Nat := 0
  verification_errors : Nat := 0
  current_file : Option String := none
  is_complete : Bool := false

/-- The status snapshot returned by `get_status` / `_get_live_status`.  The
wall-clock fields (`start_time`, `elapsed_time`, `estimated_completion`) and
`job_type` are omitted: no claim concerns them. -/
structure CrawlStatus where
  running : Bool
  current_phase : String
  discovery_progress : Nat
  indexing_progress : Nat
  verification_progress : Nat
  files_discovered : Nat
  files_indexed : Nat
  files_skipped : Nat
  queue_size : Nat
  monitoring_active : Bool
  orphan_count : Nat

/-- `CrawlJobManager._get_live_status` (manager.py lines 112-170). -/
def get_live_status (running monitoring : Bool) (discoverer_files_found : Nat)
    (dp : DiscoveryProgress) (ip : IndexingProgress) (vp : VerificationProgress) :
    CrawlStatus :=
  let discovery_pct :=
    if dp.total_paths > 0 then min (int_div_mul100 dp.processed_paths dp.total_paths) 100 else 0
  let verification_pct :=
    if vp.total_indexed > 0 then min (int_div_mul100 vp.processed_count vp.total_indexed) 100
    else if vp.is_complete then 100 else 0
  let files_indexed := ip.files_indexed
  let total_known :=
    max (max discoverer_files_found dp.files_found) (max ip.files_to_index files_indexed)
  let indexing_pct :=
    if total_known > 0 then min (int_div_mul100 files_indexed total_known) 100 else 0
  let phase0 := if discovery_pct < 100 then "discovering" else "indexing"
  let phase1 := if !vp.is_complete then "verifying" else phase0
  let current_phase :=
    if indexing_pct ≥ 100 && discovery_pct ≥ 100 && vp.is_complete then "idle" else phase1
  { running := running
    current_phase := current_phase
    discovery_progress := discovery_pct
    indexing_progress := indexing_pct
    verification_progress := verification_pct
    files_discovered := total_known
    files_indexed := files_indexed
    files_skipped := dp.files_skipped
    queue_size := max 0 (total_known - files_indexed)
    monitoring_active := monitoring
    orphan_count := vp.orphaned_count }

/-- `CrawlJobManager.get_status`, non-running branch (manager.py lines
82-110): last known state from the DB; `queue_size` is the literal 0 and
`files_skipped` the literal 0. -/
def get_idle_status (state_files_indexed state_files_discovered : Nat)
    (state_discovery_progress : Nat) (state_monitoring_active : Bool) : CrawlStatus :=
  let files_indexed := state_files_indexed
  let files_discovered := max state_files_discovered files_indexed
  let indexing_progress :=
    if files_discovered > 0 then int_div_mul100 files_indexed files_discovered else 0
  { running := false
    current_phase := "idle"
    discovery_progress := min state_discovery_progress 100
    indexing_progress := min indexing_progress 100
    verification_progress := 0
    files_discovered := files_discovered
    files_indexed := files_indexed
    files_skipped := 0
    queue_size := 0
    monitoring_active := state_monitoring_active
    orphan_count := 0 }

/-- One iteration of the worker loop `CrawlJobManager._process_queue`
(manager.py lines 220-230) after `queue.get()` yielded an operation whose
processing returned `success`: bump `files_to_index`, then `files_indexed` on
success, `files_failed` otherwise.  It touches no `DiscoveryProgress` field. -/
def process_queue_step (ip : IndexingProgress) (success : Bool) : IndexingProgress :=
  let ip1 := { ip with files_to_index := ip.files_to_index + 1 }
  if success then { ip1 with files_indexed := ip1.files_indexed + 1 }
  else { ip1 with files_failed := ip1.files_failed + 1 }

/-- **C6.** The claimed invariant — `queue_size > 0` implies
`indexing_progress < 100` — fails on the code at the float boundary, even
though the spec's own invariant text mandates clamping to 99 while work is
pending: with `files_indexed = 2 ^ 54 - 1` of `total_known = 2 ^ 54` files,
IEEE binary64 division rounds `(2 ^ 54 - 1) / 2 ^ 54` (a tie between
`1 - 2 ^ (-53)` and `1.0`) half-to-even up to `1.0`, `int(1.0 * 100)` is 100,
the manager has no 99-clamp, and the snapshot reports
`indexing_progress = 100` next to `queue_size = 1 > 0`. -/
theorem status_progress_100_with_pending_work :
    (get_live_status true false (2 ^ 54) {} { files_indexed := 2 ^ 54 - 1 } {}).queue_size = 1
    ∧ (get_live_status true false (2 ^ 54) {}
        { files_indexed := 2 ^ 54 - 1 } {}).indexing_progress = 100 := by
  constructor <;> rfl

/-! ## Search-engine client (`src/services/typesense_client.py`) -/

/-- `generate_doc_id` (typesense_client.py lines 109-112):
`hashlib.sha1(file_path.encode()).hexdigest()`.  The SHA-1 hex digest is
modelled as an injective tagging function (hash collisions are abstracted
away); what matters to the claims is that the id is computed from `file_path`
alone. -/
def generate_doc_id (file_path : String) : String :=
  "sha1:" ++ file_path

/-- A stored document, as far as the claims need it. -/
structure TsDoc where
  file_path : String
deriving Repr, DecidableEq

/-- The collection: documents keyed by their id (ids are unique in
Typesense). -/
abbrev TsStore := List (String × TsDoc)

/-- `remove_from_index` (typesense_client.py lines 238-249): delete the single
document whose id is `generate_doc_id(file_path)`; `ObjectNotFound` is caught
(not-found is success), so the operation is total and a missing id leaves the
store unchanged. -/
def remove_from_index (store : TsStore) (file_path : String) : TsStore :=
  dictPop store (generate_doc_id file_path)

/-- Modelled from the spec: "Document id = stable digest of `(file_path,
chunk_index)`" — the id scheme the claim attributes to the client, the digest
again modelled as an injective encoding. -/
def generate_doc_id_spec (file_path : String) (chunk_index : Nat) : String :=
  "sha1:" ++ file_path ++ "#" ++ toString chunk_index

theorem generate_doc_id_inj {a b : String} (h : generate_doc_id a = generate_doc_id b) :
    a = b := by
  have hd := congrArg String.data h
  simp only [generate_doc_id, String.data_append] at hd
  have hcancel := List.append_cancel_left hd
  cases a
  cases b
  exact congrArg String.mk (by simpa using hcancel)

theorem dictPop_not_mem {T : Type} {items : List (String × T)} {key : String}
    (h : key ∉ items.map Prod.fst) : dictPop items key = items := by
  induction items with
  | nil => rfl
  | cons p tl ih =>
    obtain ⟨k, v⟩ := p
    simp only [List.map_cons, List.mem_cons] at h
    push_neg at h
    have hk : ¬k = key := fun hh => h.1 hh.symm
    simp [dictPop, hk, ih h.2]

theorem dictPop_eq_filter {T : Type} {items : List (String × T)} {key : String}
    (h : (items.map Prod.fst).Nodup) :
    dictPop items key = items.filter fun p => p.1 != key := by
  induction items with
  | nil => rfl
  | cons p tl ih =>
    obtain ⟨k, v⟩ := p
    simp only [List.map_cons, List.nodup_cons] at h
    by_cases hk : k = key
    · subst hk
      have hall : tl.filter (fun p => p.1 != k) = tl := by
        apply List.filter_eq_self.mpr
        intro a ha
        have : a.1 ≠ k := fun hh => h.1 (hh ▸ List.mem_map_of_mem Prod.fst ha)
        simpa using this
      simp [dictPop, hall]
    · simp [dictPop, hk, ih h.2, List.filter_cons, bne_iff_ne, Ne.symm, hk]

/-- **C4 counterexample.** A store holding the chunk-1 document of
`/r/a.txt` under the claim's id scheme (stable digest of `(file_path,
chunk_index)`): `remove_from_index "/r/a.txt"` deletes nothing, because the
client computes ids from `file_path` alone, so no document "whose id is the
stable digest of (file_path, chunk_index)" is addressed by the delete. -/
theorem remove_from_index_counterexample :
    remove_from_index [(generate_doc_id_spec "/r/a.txt" 1, ⟨"/r/a.txt"⟩)] "/r/a.txt"
        = [(generate_doc_id_spec "/r/a.txt" 1, ⟨"/r/a.txt"⟩)]
      ∧ generate_doc_id_spec "/r/a.txt" 1 ≠ generate_doc_id "/r/a.txt" := by
  constructor <;> decide

/-- **C4 (amended).** On a store keyed the way this client keys documents
(`id = generate_doc_id(file_path)`, one digest per path, ids unique),
`removeByPath(path)` deletes exactly the documents whose `file_path` is
`path` — the id carries no `chunk_index` — and not-found is success: removing
a never-indexed path returns the store unchanged (no error). -/
theorem remove_from_index_amended (store : TsStore) (fp : String)
    (hids : ∀ d ∈ store, d.1 = generate_doc_id d.2.file_path)
    (hnd : (store.map Prod.fst).Nodup) :
    remove_from_index store fp = store.filter (fun d => d.2.file_path != fp)
      ∧ (generate_doc_id fp ∉ store.map Prod.fst → remove_from_index store fp = store) := by
  constructor
  · unfold remove_from_index
    rw [dictPop_eq_filter hnd]
    apply List.filter_congr
    intro d hd
    rw [hids d hd]
    by_cases h : d.2.file_path = fp
    · rw [h]
      simp
    · have h2 : generate_doc_id d.2.file_path ≠ generate_doc_id fp :=
        fun hh => h (generate_doc_id_inj hh)
      have e1 : (generate_doc_id d.2.file_path != generate_doc_id fp) = true := by
        simpa using h2
      have e2 : (d.2.file_path != fp) = true := by simpa using h
      rw [e1, e2]
  · intro h
    unfold remove_from_index
    exact dictPop_not_mem h

/-- Store for the C4 witness: two files indexed under the client's own ids. -/
def tsStore0 : TsStore :=
  [(generate_doc_id "/r/x.txt", ⟨"/r/x.txt"⟩), (generate_doc_id "/r/y.txt", ⟨"/r/y.txt"⟩)]

/-- **C4 witness.** -/
theorem remove_from_index_amended_witness :
    remove_from_index tsStore0 "/r/x.txt"
        = tsStore0.filter (fun d => d.2.file_path != "/r/x.txt")
      ∧ (generate_doc_id "/r/x.txt" ∉ tsStore0.map Prod.fst
          → remove_from_index tsStore0 "/r/x.txt" = tsStore0) :=
  remove_from_index_amended tsStore0 "/r/x.txt" (by decide) (by decide)

/-! ## File indexer (`services/crawler/indexer.py`)

The indexer imports the chunk-aware `services.typesense_client` of the app
package, which is not part of the source snapshot; per the spec (§4.7) its
`getDocByPath` returns the chunk-0 document or null and `indexChunk`
(`index_file`) upserts exactly the fields it is passed, so an upsert is
recorded as the set of keyword arguments of each call.  OS and library calls
are environment functions. -/

inductive OperationType
  | create
  | edit
  | delete
deriving DecidableEq, Repr

/-- `CrawlOperation` (api/models/operations.py), restricted to the fields the
indexer reads. -/
structure CrawlOperation where
  operation : OperationType
  file_path : String
  file_size : Option Int := none
  modified_time : Option Int := none
  created_time : Option Int := none
deriving Repr, DecidableEq

/-- `DocumentContent` (api/models/file_event.py): extracted text plus a
string-valued metadata map. -/
structure DocumentContent where
  content : String
  metadata : List (String × String)
deriving Repr, DecidableEq

/-- The chunk-0 document as consulted by the unchanged-file check:
`existing_doc.get("file_hash")`. -/
structure ExistingDoc where
  file_hash : Option String := none
deriving Repr, DecidableEq

/-- The OS / library / service environment of one indexing call. -/
structure IndexEnv where
  /-- `os.path.exists` -/
  path_exists : String → Bool
  /-- `os.path.isfile` -/
  path_isfile : String → Bool
  /-- `os.access(path, os.R_OK)` -/
  path_readable : String → Bool
  /-- `_calculate_file_hash` (indexer.py lines 130-144): streaming 4096-byte
  MD5 hex digest of the file as read at processing time; `""` on error. -/
  md5_hash : String → String
  /-- `mimetypes.guess_type(path)[0]` -/
  guess_mime : String → Option String
  /-- `Path(path).suffix.lower()` -/
  suffix_lower : String → String
  /-- `int(os.getenv("MAX_FILE_SIZE_MB", "100"))` -/
  max_file_size_mb : Int := 100
  /-- Modelled from the spec: `typesense.get_doc_by_path` of the chunk-aware
  client returns the chunk-0 document of the path, or null. -/
  get_doc_by_path : String → Option ExistingDoc
  /-- `extractor.extract`; `.error` models a raised exception. -/
  extract : String → Except String DocumentContent
  /-- `get_chunk_config()` -/
  chunk_size : Nat
  overlap : Nat

/-- Modelled from the spec: `services.chunker.chunk_text` is not in the source
snapshot.  §4.6: "The first chunk starts at offset 0; each subsequent chunk
starts at the previous start plus `chunk_size − overlap`; the last chunk may
be shorter.  Empty input produces one empty chunk." -/
def chunk_text (text : String) (chunk_size overlap : Nat) : List String :=
  let step := chunk_size - overlap
  let len := text.data.length
  let n := if len = 0 || step = 0 then 1 else (len - 1) / step + 1
  (List.range n).map fun i => String.mk ((text.data.drop (i * step)).take chunk_size)

/-- Modelled from the spec: `services.chunker.generate_chunk_hash` is not in
the source snapshot.  §4.6: "`chunk_hash` of a chunk is a stable digest of
`(file_path, chunk_index, chunk_content)`", digest modelled as an injective
encoding. -/
def generate_chunk_hash (file_path : String) (chunk_index : Nat) (content : String) : String :=
  "md5:" ++ file_path ++ "#" ++ toString chunk_index ++ "#" ++ content

/-- One upsert sent to the chunk-aware client: the keyword arguments of one
`typesense.index_file(...)` call in indexer.py lines 100-109.  An optional
field is `none` when the keyword is not passed (so chunks ≥ 1 carry no
`created_time`, no `file_hash` and no extracted metadata). -/
structure IndexCall where
  file_path : String
  content : String
  chunk_index : Nat
  chunk_total : Nat
  chunk_hash : String
  file_extension : String
  file_size : Option Int
  mime_type : String
  modified_time : Option Int
  created_time : Option Int := none
  file_hash : Option String := none
  metadata : Option (List (String × String)) := none
deriving Repr, DecidableEq

/-- `FileIndexer._check_file_accessibility` (indexer.py lines 121-128). -/
def check_file_accessibility (env : IndexEnv) (file_path : String) : Bool × String :=
  if !env.path_exists file_path then (false, "File does not exist")
  else if !env.path_isfile file_path then (false, "Path is not a file")
  else if !env.path_readable file_path then (false, "File is not readable")
  else (true, "File is accessible")

/-- indexer.py line 53: `operation.file_size and operation.file_size > max_size_bytes`
(`None` and `0` are falsy, so they skip the size check). -/
def file_too_large (env : IndexEnv) (op : CrawlOperation) : Bool :=
  match op.file_size with
  | none => false
  | some s => s != 0 && decide (env.max_file_size_mb * 1024 * 1024 < s)

/-- indexer.py line 62: `existing_doc and existing_doc.get("file_hash") == file_hash`. -/
def skip_unchanged (env : IndexEnv) (file_path file_hash : String) : Bool :=
  match env.get_doc_by_path file_path with
  | some existing_doc => existing_doc.file_hash == some file_hash
  | none => false

/-- The chunk loop of indexer.py lines 82-109: one upsert per chunk,
`essential_metadata` on every chunk, the document-level extras only on
chunk 0. -/
def build_chunk_calls (env : IndexEnv) (op : CrawlOperation) (file_hash : String)
    (document_content : DocumentContent) : List IndexCall :=
  let content_chunks := chunk_text document_content.content env.chunk_size env.overlap
  let total_chunks := content_chunks.length
  content_chunks.enum.map fun ic =>
    { file_path := op.file_path
      content := ic.2
      chunk_index := ic.1
      chunk_total := total_chunks
      chunk_hash := generate_chunk_hash op.file_path ic.1 ic.2
      file_extension := env.suffix_lower op.file_path
      file_size := op.file_size
      mime_type := (env.guess_mime op.file_path).getD "application/octet-stream"
      modified_time := op.modified_time
      created_time := if ic.1 = 0 then op.created_time else none
      file_hash := if ic.1 = 0 then some file_hash else none
      metadata := if ic.1 = 0 then some document_content.metadata else none }

/-- `FileIndexer._handle_create_edit_operation` (indexer.py lines 44-111):
the Python return value and the upserts issued; `.error` models an exception
(from extraction) propagating out of the call. -/
def handle_create_edit_operation (env : IndexEnv) (op : CrawlOperation) :
    Except String (Bool × List IndexCall) :=
  if !(check_file_accessibility env op.file_path).1 then .ok (false, [])
  else if file_too_large env op then .ok (false, [])
  else if env.md5_hash op.file_path = "" then .ok (false, [])
  else if skip_unchanged env op.file_path (env.md5_hash op.file_path) then .ok (true, [])
  else
    match env.extract op.file_path with
    | .error e => .error e
    | .ok document_content =>
      .ok (true, build_chunk_calls env op (env.md5_hash op.file_path) document_content)

/-- `FileIndexer.index_file` (indexer.py lines 32-42): stop-flag check, then
dispatch on the operation type.  The delete branch only calls the client's
`remove_from_index` (settled with the client embedding) and issues no
upsert. -/
def index_file (env : IndexEnv) (stopped : Bool) (op : CrawlOperation) :
    Except String (Bool × List IndexCall) :=
  if stopped then .ok (false, [])
  else
    match op.operation with
    | .delete => .ok (true, [])
    | _ => handle_create_edit_operation env op

theorem index_file_eq_handle (env : IndexEnv) (op : CrawlOperation)
    (hop : op.operation ≠ OperationType.delete) :
    index_file env false op = handle_create_edit_operation env op := by
  unfold index_file
  cases hto : op.operation with
  | delete => exact absurd hto hop
  | create => rfl
  | edit => rfl

/-- **C10.** Every create/edit operation that the indexer rejects before
extraction — inaccessible path (missing, not a regular file, or unreadable),
`file_size` above the `max_file_size_mb` cap, or a failed hash computation —
makes `index_file` return `False` with zero upserts, leaving the index
unchanged. -/
theorem index_file_reject_no_write (env : IndexEnv) (stopped : Bool) (op : CrawlOperation)
    (hop : op.operation ≠ OperationType.delete)
    (hrej : (check_file_accessibility env op.file_path).1 = false
      ∨ (∃ s, op.file_size = some s ∧ 0 < s ∧ env.max_file_size_mb * 1024 * 1024 < s)
      ∨ env.md5_hash op.file_path = "") :
    index_file env stopped op = .ok (false, []) := by
  cases stopped with
  | true => rfl
  | false =>
    rw [index_file_eq_handle env op hop]
    unfold handle_create_edit_operation
    cases hacc : (check_file_accessibility env op.file_path).1 with
    | false => simp [hacc]
    | true =>
      rcases hrej with h1 | h2 | h3
      · rw [hacc] at h1
        exact absurd h1 (by simp)
      · have htl : file_too_large env op = true := by
          obtain ⟨s, hs, hpos, hgt⟩ := h2
          unfold file_too_large
          rw [hs]
          simp only [Bool.and_eq_true, bne_iff_ne, ne_eq, decide_eq_true_eq]
          exact ⟨by omega, hgt⟩
        simp [htl]
      · cases htl : file_too_large env op with
        | true => simp [htl]
        | false => simp [htl, h3]

/-- Environment for the C10 witness: the path does not exist. -/
def rejectEnv : IndexEnv :=
  { path_exists := fun _ => false
    path_isfile := fun _ => false
    path_readable := fun _ => false
    md5_hash := fun _ => ""
    guess_mime := fun _ => none
    suffix_lower := fun _ => ""
    get_doc_by_path := fun _ => none
    extract := fun _ => .error "not reached"
    chunk_size := 1000
    overlap := 200 }

/-- **C10 witness.** -/
theorem index_file_reject_no_write_witness :
    index_file rejectEnv false { operation := OperationType.create, file_path := "/r/gone.txt" }
      = .ok (false, []) :=
  index_file_reject_no_write rejectEnv false
    { operation := OperationType.create, file_path := "/r/gone.txt" }
    (by decide) (Or.inl rfl)

theorem chunk_text_length_pos (text : String) (chunk_size overlap : Nat) :
    0 < (chunk_text text chunk_size overlap).length := by
  unfold chunk_text
  simp only [List.length_map, List.length_range]
  split
  · exact Nat.one_pos
  · exact Nat.succ_pos _

theorem build_chunk_calls_length (env : IndexEnv) (op : CrawlOperation)
    (file_hash : String) (dc : DocumentContent) :
    (build_chunk_calls env op file_hash dc).length
      = (chunk_text dc.content env.chunk_size env.overlap).length := by
  unfold build_chunk_calls
  simp

theorem build_chunk_calls_chunk_index (env : IndexEnv) (op : CrawlOperation)
    (file_hash : String) (dc : DocumentContent) :
    (build_chunk_calls env op file_hash dc).map IndexCall.chunk_index
      = List.range (build_chunk_calls env op file_hash dc).length := by
  have h1 : (build_chunk_calls env op file_hash dc).map IndexCall.chunk_index
      = (chunk_text dc.content env.chunk_size env.overlap).enum.map Prod.fst := by
    unfold build_chunk_calls
    rw [List.map_map]
    rfl
  rw [h1, List.enum_map_fst, build_chunk_calls_length]

theorem build_chunk_calls_mem (env : IndexEnv) (op : CrawlOperation)
    (file_hash : String) (dc : DocumentContent) {c : IndexCall}
    (hc : c ∈ build_chunk_calls env op file_hash dc) :
    c.file_path = op.file_path
    ∧ c.chunk_total = (chunk_text dc.content env.chunk_size env.overlap).length
    ∧ c.chunk_hash = generate_chunk_hash op.file_path c.chunk_index c.content
    ∧ c.file_extension = env.suffix_lower op.file_path
    ∧ c.file_size = op.file_size
    ∧ c.mime_type = (env.guess_mime op.file_path).getD "application/octet-stream"
    ∧ c.modified_time = op.modified_time
    ∧ (c.chunk_index = 0 →
        c.file_hash = some file_hash
        ∧ c.created_time = op.created_time
        ∧ c.metadata = some dc.metadata)
    ∧ (1 ≤ c.chunk_index →
        c.file_hash = none ∧ c.created_time = none ∧ c.metadata = none) := by
  unfold build_chunk_calls at hc
  rw [List.mem_map] at hc
  obtain ⟨⟨i, chunk⟩, hic, rfl⟩ := hc
  refine ⟨rfl, rfl, rfl, rfl, rfl, rfl, rfl, ?_, ?_⟩
  · intro h0
    have h0i : i = 0 := h0
    subst h0i
    simp
  · intro h1
    have h1i : 1 ≤ i := h1
    have hne : ¬i = 0 := by omega
    simp only []
    rw [if_neg hne, if_neg hne, if_neg hne]
    exact ⟨rfl, rfl, rfl⟩

/-- **C7.** For every file indexed as `n` chunks, chunk indexes cover
`[0, n)`, every upsert carries the essential fields (`file_path`, `content`,
`chunk_index`, `chunk_total`, `chunk_hash`, `file_extension`, `file_size`,
`mime_type`, `modified_time`), the chunk-0 upsert additionally carries the
document-level metadata (`file_hash`, `created_time`, the extracted metadata
map with title / author / description ...), and every chunk with
`chunk_index ≥ 1` is upserted with the essential fields only — in particular
no `file_hash`, no `created_time`, no metadata keywords. -/
theorem index_file_chunk0_metadata (env : IndexEnv) (op : CrawlOperation)
    (dc : DocumentContent)
    (hop : op.operation ≠ OperationType.delete)
    (hacc : (check_file_accessibility env op.file_path).1 = true)
    (hsize : file_too_large env op = false)
    (hhash : env.md5_hash op.file_path ≠ "")
    (hskip : skip_unchanged env op.file_path (env.md5_hash op.file_path) = false)
    (hext : env.extract op.file_path = .ok dc) :
    index_file env false op
        = .ok (true, build_chunk_calls env op (env.md5_hash op.file_path) dc)
    ∧ 0 < (build_chunk_calls env op (env.md5_hash op.file_path) dc).length
    ∧ (build_chunk_calls env op (env.md5_hash op.file_path) dc).map IndexCall.chunk_index
        = List.range (build_chunk_calls env op (env.md5_hash op.file_path) dc).length
    ∧ ∀ c ∈ build_chunk_calls env op (env.md5_hash op.file_path) dc,
        c.file_path = op.file_path
        ∧ c.chunk_total = (build_chunk_calls env op (env.md5_hash op.file_path) dc).length
        ∧ c.chunk_hash = generate_chunk_hash op.file_path c.chunk_index c.content
        ∧ c.file_extension = env.suffix_lower op.file_path
        ∧ c.file_size = op.file_size
        ∧ c.mime_type = (env.guess_mime op.file_path).getD "application/octet-stream"
        ∧ c.modified_time = op.modified_time
        ∧ (c.chunk_index = 0 →
            c.file_hash = some (env.md5_hash op.file_path)
            ∧ c.created_time = op.created_time
            ∧ c.metadata = some dc.metadata)
        ∧ (1 ≤ c.chunk_index →
            c.file_hash = none ∧ c.created_time = none ∧ c.metadata = none) := by
  have hmain : index_file env false op
      = .ok (true, build_chunk_calls env op (env.md5_hash op.file_path) dc) := by
    rw [index_file_eq_handle env op hop]
    unfold handle_create_edit_operation
    rw [if_neg (by simp [hacc]), if_neg (by simp [hsize]), if_neg hhash,
      if_neg (by simp [hskip]), hext]
  refine ⟨hmain, ?_, build_chunk_calls_chunk_index env op _ dc, fun c hc => ?_⟩
  · rw [build_chunk_calls_length]
    exact chunk_text_length_pos dc.content env.chunk_size env.overlap
  · obtain ⟨h1, h2, h3, h4, h5, h6, h7, h8, h9⟩ :=
      build_chunk_calls_mem env op (env.md5_hash op.file_path) dc hc
    exact ⟨h1, by rw [build_chunk_calls_length]; exact h2, h3, h4, h5, h6, h7, h8, h9⟩

/-- Environment for the C7 witness: a readable file whose content
`"abcdefgh"` splits, with `chunk_size = 4` and `overlap = 1`, into the three
chunks `"abcd"`, `"defg"`, `"gh"`. -/
def chunkEnv : IndexEnv :=
  { path_exists := fun _ => true
    path_isfile := fun _ => true
    path_readable := fun _ => true
    md5_hash := fun _ => "h1"
    guess_mime := fun _ => some "text/markdown"
    suffix_lower := fun _ => ".md"
    get_doc_by_path := fun _ => none
    extract := fun _ => .ok { content := "abcdefgh", metadata := [("title", "T")] }
    chunk_size := 4
    overlap := 1 }

def chunkOp : CrawlOperation :=
  { operation := OperationType.create
    file_path := "/r/b.md"
    file_size := some 8
    modified_time := some 1000
    created_time := some 900 }

def chunkDC : DocumentContent := { content := "abcdefgh", metadata := [("title", "T")] }

/-- **C7 witness.** -/
theorem index_file_chunk0_metadata_witness :
    index_file chunkEnv false chunkOp
        = .ok (true, build_chunk_calls chunkEnv chunkOp (chunkEnv.md5_hash chunkOp.file_path) chunkDC)
    ∧ 0 < (build_chunk_calls chunkEnv chunkOp (chunkEnv.md5_hash chunkOp.file_path) chunkDC).length
    ∧ (build_chunk_calls chunkEnv chunkOp (chunkEnv.md5_hash chunkOp.file_path) chunkDC).map
          IndexCall.chunk_index
        = List.range
            (build_chunk_calls chunkEnv chunkOp (chunkEnv.md5_hash chunkOp.file_path) chunkDC).length
    ∧ ∀ c ∈ build_chunk_calls chunkEnv chunkOp (chunkEnv.md5_hash chunkOp.file_path) chunkDC,
        c.file_path = chunkOp.file_path
        ∧ c.chunk_total
            = (build_chunk_calls chunkEnv chunkOp (chunkEnv.md5_hash chunkOp.file_path) chunkDC).length
        ∧ c.chunk_hash = generate_chunk_hash chunkOp.file_path c.chunk_index c.content
        ∧ c.file_extension = chunkEnv.suffix_lower chunkOp.file_path
        ∧ c.file_size = chunkOp.file_size
        ∧ c.mime_type = (chunkEnv.guess_mime chunkOp.file_path).getD "application/octet-stream"
        ∧ c.modified_time = chunkOp.modified_time
        ∧ (c.chunk_index = 0 →
            c.file_hash = some (chunkEnv.md5_hash chunkOp.file_path)
            ∧ c.created_time = chunkOp.created_time
            ∧ c.metadata = some chunkDC.metadata)
        ∧ (1 ≤ c.chunk_index →
            c.file_hash = none ∧ c.created_time = none ∧ c.metadata = none) :=
  index_file_chunk0_metadata chunkEnv chunkOp chunkDC (by decide) rfl rfl (by decide) rfl rfl

/-- **C2 counterexample.** A file whose chunk-0 document already holds the
current hash: the code returns success with zero upserts and the worker loop
then counts the file in `files_indexed` (1, not 0) while the status's
`files_skipped` stays 0 — the claim expects `files_skipped = 1`,
`files_indexed = 0`. -/
theorem skip_counts_counterexample :
    index_file
        { path_exists := fun _ => true
          path_isfile := fun _ => true
          path_readable := fun _ => true
          md5_hash := fun _ => "h0"
          guess_mime := fun _ => some "text/plain"
          suffix_lower := fun _ => ".txt"
          get_doc_by_path := fun _ => some { file_hash := some "h0" }
          extract := fun _ => .error "not reached"
          chunk_size := 1000
          overlap := 200 }
        false { operation := OperationType.edit, file_path := "/r/a.txt" }
      = .ok (true, [])
    ∧ (get_live_status true false 1 {} (process_queue_step {} true) {}).files_indexed = 1
    ∧ (get_live_status true false 1 {} (process_queue_step {} true) {}).files_skipped = 0 :=
  ⟨rfl, rfl, rfl⟩

/-- **C2 (amended).** When the chunk-0 document's `file_hash` equals the
fresh streaming-MD5 hash, the indexer performs no extraction (the result does
not depend on the extraction function at all) and issues zero upserts, and it
returns `True`: the worker loop therefore counts the file in `files_indexed`
(not `files_failed`), while `files_skipped` — a discovery-phase counter the
indexing step never writes — is unchanged in the status snapshot. -/
theorem skip_unchanged_counts_indexed (env : IndexEnv) (op : CrawlOperation)
    (ip : IndexingProgress) (dff : Nat) (dp : DiscoveryProgress)
    (vp : VerificationProgress)
    (hop : op.operation ≠ OperationType.delete)
    (hacc : (check_file_accessibility env op.file_path).1 = true)
    (hsize : file_too_large env op = false)
    (hhash : env.md5_hash op.file_path ≠ "")
    (hskip : skip_unchanged env op.file_path (env.md5_hash op.file_path) = true) :
    index_file env false op = .ok (true, [])
    ∧ (∀ f g, index_file { env with extract := f } false op
        = index_file { env with extract := g } false op)
    ∧ (process_queue_step ip true).files_indexed = ip.files_indexed + 1
    ∧ (process_queue_step ip true).files_failed = ip.files_failed
    ∧ (get_live_status true false dff dp (process_queue_step ip true) vp).files_skipped
        = dp.files_skipped := by
  have hmain : ∀ f : String → Except String DocumentContent,
      index_file { env with extract := f } false op = .ok (true, []) := by
    intro f
    rw [index_file_eq_handle { env with extract := f } op hop]
    unfold handle_create_edit_operation
    rw [if_neg (by simp [check_file_accessibility] at hacc ⊢; exact hacc),
      if_neg (by simp [file_too_large] at hsize ⊢; exact hsize)]
    rw [if_neg (by exact hhash), if_pos (by simp [skip_unchanged] at hskip ⊢; exact hskip)]
  refine ⟨?_, fun f g => (hmain f).trans (hmain g).symm, rfl, rfl, rfl⟩
  have := hmain env.extract
  simpa using this

/-- Environment for the C2 witness: the chunk-0 document already holds the
freshly computed hash `"h0"`. -/
def skipEnv : IndexEnv :=
  { path_exists := fun _ => true
    path_isfile := fun _ => true
    path_readable := fun _ => true
    md5_hash := fun _ => "h0"
    guess_mime := fun _ => some "text/plain"
    suffix_lower := fun _ => ".txt"
    get_doc_by_path := fun _ => some { file_hash := some "h0" }
    extract := fun _ => .error "not reached"
    chunk_size := 1000
    overlap := 200 }

def skipOp : CrawlOperation := { operation := OperationType.edit, file_path := "/r/a.txt" }

/-- **C2 witness.** -/
theorem skip_unchanged_counts_indexed_witness :
    index_file skipEnv false skipOp = .ok (true, [])
    ∧ (∀ f g, index_file { skipEnv with extract := f } false skipOp
        = index_file { skipEnv with extract := g } false skipOp)
    ∧ (process_queue_step {} true).files_indexed = ({} : IndexingProgress).files_indexed + 1
    ∧ (process_queue_step {} true).files_failed = ({} : IndexingProgress).files_failed
    ∧ (get_live_status true false 1 {} (process_queue_step {} true) {}).files_skipped
        = ({} : DiscoveryProgress).files_skipped :=
  skip_unchanged_counts_indexed skipEnv skipOp {} 1 {} {} (by decide) rfl rfl (by decide) rfl

/-! ## Extraction chain (`services/extraction/extractor.py` and
`file_brain/services/extraction/tika_strategy.py`)

A strategy's behaviour on the one file being extracted is captured as data:
`can_extract` and the outcome of `extract`, where a raised
`ExtractionFallbackNotAllowed` and any other raised exception are the two
distinguished error kinds. -/

inductive ExErr
  /-- `ExtractionFallbackNotAllowed` (file_brain/services/extraction/exceptions.py). -/
  | fallbackNotAllowed (msg : String)
  /-- Any other exception. -/
  | ordinary (msg : String)
deriving Repr, DecidableEq

structure Strategy where
  can_extract : String → Bool
  extract : String → Except ExErr DocumentContent

/-- The `for strategy in self.strategies` loop of `ContentExtractor.extract`
(extractor.py lines 76-90): **every** exception — the no-fallback one
included, since the handler is a blanket `except Exception` — is caught,
recorded as `last_error`, and the loop moves on to the next strategy; after
the loop the last error (if any) is re-raised, else an empty result is
returned. -/
def extractor_loop (file_path : String) (last_error : Option ExErr) :
    List Strategy → Except ExErr DocumentContent
  | [] =>
    match last_error with
    | some e => .error e
    | none => .ok { content := "", metadata := [("error", "No extraction strategy available")] }
  | strategy :: rest =>
    if strategy.can_extract file_path then
      match strategy.extract file_path with
      | .ok dc => .ok dc
      | .error e => extractor_loop file_path (some e) rest
    else extractor_loop file_path last_error rest

/-- `ContentExtractor.extract` (extractor.py lines 59-90). -/
def extractor_extract (strategies : List Strategy) (path_exists : String → Bool)
    (file_path : String) : Except ExErr DocumentContent :=
  if !path_exists file_path then .error (.ordinary "FileNotFoundError")
  else extractor_loop file_path none strategies

/-- What one `parser.from_file` round trip yields: `status`, `content` and
the raw metadata (string-valued in this model). -/
structure TikaParsed where
  status : Option Nat := none
  content : Option String := none
  metadata : List (String × String) := []
deriving Repr, DecidableEq

/-- The per-file environment of one `TikaExtractionStrategy.extract` call:
whether Tika is enabled, the configured endpoint, the detector result
(`.error` = detection raised) and the parser outcome per timeout
(`.error` = the call raised, `.ok none` = falsy result). -/
structure TikaEnv where
  tika_enabled : Bool := true
  tika_endpoint : Option String := none
  detect : Except String (Option String) := .ok none
  attempt : Nat → Except String (Option TikaParsed)

/-- tika_strategy.py line 43: the increasing-timeout retry sequence. -/
def tika_timeouts : List Nat := [60, 120, 240]

/-- `TikaExtractionStrategy._is_tika_supported` (tika_strategy.py lines
104-136): detection errors and falsy MIME types mean unsupported, and
`application/octet-stream` is explicitly unsupported to allow the basic
fallback. -/
def is_tika_supported (env : TikaEnv) : Bool :=
  match env.detect with
  | .error _ => false
  | .ok none => false
  | .ok (some mime_type) =>
    if mime_type == "" then false
    else if mime_type == "application/octet-stream" then false
    else true

/-- `TikaExtractionStrategy._process_metadata` (tika_strategy.py lines
138-170): first mapping wins per target key, falsy values are skipped, and
`extraction_method = "tika"` is always set. -/
def tika_metadata_mappings : List (String × String) :=
  [("Content-Type", "mime_type"), ("dc:title", "title"), ("title", "title"),
   ("dc:creator", "author"), ("Author", "author"), ("creator", "author"),
   ("dc:description", "description"), ("description", "description"),
   ("Last-Modified", "modified_date"), ("Creation-Date", "created_date"),
   ("xmpTPg:NPages", "page_count"), ("Page-Count", "page_count"),
   ("meta:word-count", "word_count"), ("Word-Count", "word_count"),
   ("meta:character-count", "character_count"), ("Character-Count", "character_count")]

def process_metadata (raw_metadata : List (String × String)) : List (String × String) :=
  let mapped := tika_metadata_mappings.foldl
    (fun metadata m =>
      match dictLookup raw_metadata m.1 with
      | some value =>
        if (dictLookup metadata m.2).isSome then metadata
        else if value == "" then metadata
        else metadata ++ [(m.2, value)]
      | none => metadata)
    []
  mapped ++ [("extraction_method", "tika")]

/-- One attempt of the retry loop (tika_strategy.py lines 48-90): a raised
call, a falsy parse result, or a non-200 status are failures; a missing
`content` becomes `""`, the content is stripped, the metadata processed, and
the endpoint recorded when configured. -/
def tika_attempt (env : TikaEnv) (timeout : Nat) : Except String DocumentContent :=
  match env.attempt timeout with
  | .error e => .error e
  | .ok none => .error "Tika returned empty result"
  | .ok (some parsed) =>
    let status_bad :=
      match parsed.status with
      | some status => status != 0 && status != 200
      | none => false
    if status_bad then .error "Tika returned bad status"
    else
      let content := (parsed.content.getD "").trim
      let metadata := process_metadata parsed.metadata
      let metadata :=
        match env.tika_endpoint with
        | some ep => metadata ++ [("tika_endpoint", ep)]
        | none => metadata
      .ok { content := content, metadata := metadata }

/-- The `for attempt, timeout in enumerate(timeouts)` loop: first success
wins; failures accumulate into `last_error`. -/
def tika_loop (env : TikaEnv) :
    List Nat → Option String → Option DocumentContent × Option String
  | [], last_error => (none, last_error)
  | timeout :: rest, last_error =>
    match tika_attempt env timeout with
    | .ok dc => (some dc, last_error)
    | .error e => tika_loop env rest (some e)

/-- `TikaExtractionStrategy.extract` (tika_strategy.py lines 27-102): after
the retry loop fails, raise `ExtractionFallbackNotAllowed` exactly when the
detected MIME type was supported, else re-raise the ordinary error. -/
def tika_extract (env : TikaEnv) : Except ExErr DocumentContent :=
  match tika_loop env tika_timeouts none with
  | (some dc, _) => .ok dc
  | (none, last_error) =>
    if is_tika_supported env then
      .error (.fallbackNotAllowed
        ("Tika failed to extract supported file: " ++ last_error.getD ""))
    else
      match last_error with
      | some e => .error (.ordinary e)
      | none => .error (.ordinary "Tika extraction failed with unknown error")

/-- The Tika strategy as an element of the chain: `can_extract` is
`settings.tika_enabled` (tika_strategy.py lines 23-25). -/
def tikaStrategy (env : TikaEnv) : Strategy :=
  { can_extract := fun _ => env.tika_enabled
    extract := fun _ => tika_extract env }

/-- A per-file environment where a supported MIME type is detected but every
timed attempt raises (e.g. read timeouts at 60 s, 120 s and 240 s). -/
def tikaFailEnv : TikaEnv :=
  { tika_enabled := true
    tika_endpoint := none
    detect := .ok (some "application/pdf")
    attempt := fun _ => .error "ReadTimeout" }

/-- The basic strategy succeeding on anything (its result for the failing
file: empty filtered text). -/
def basicOkStrategy : Strategy :=
  { can_extract := fun _ => true
    extract := fun _ => .ok { content := "", metadata := [("extraction_method", "basic")] } }

/-- **C3.** At a file that exists, is no archive, whose MIME type Tika
supports, and whose three timed Tika attempts (60 s, 120 s, 240 s) all fail:
the Tika strategy does raise the no-fallback error — and it does so exactly
when a supported MIME type was detected and every retry failed — but
`ContentExtractor.extract` catches it in its blanket `except Exception` and
tries the next strategy anyway, returning the basic strategy's result instead
of aborting with an error.  This contradicts the claim and the code's own
docstrings ("This signal prevents fallback to subsequent strategies"). -/
theorem extraction_no_fallback_not_honored :
    tika_extract tikaFailEnv
        = .error (.fallbackNotAllowed "Tika failed to extract supported file: ReadTimeout")
    ∧ extractor_extract [tikaStrategy tikaFailEnv, basicOkStrategy] (fun _ => true) "/r/doc.pdf"
        = .ok { content := "", metadata := [("extraction_method", "basic")] }
    ∧ (∀ env : TikaEnv,
        (∃ msg, tika_extract env = .error (.fallbackNotAllowed msg)) ↔
          (is_tika_supported env = true
            ∧ ∀ timeout ∈ tika_timeouts, ∃ e, tika_attempt env timeout = .error e)) := by
  refine ⟨rfl, rfl, fun env => ?_⟩
  constructor
  · intro ⟨msg, hmsg⟩
    unfold tika_extract at hmsg
    cases hloop : tika_loop env tika_timeouts none with
    | mk first last =>
      rw [hloop] at hmsg
      cases first with
      | some dc => exact absurd hmsg (by simp)
      | none =>
        cases hsup : is_tika_supported env with
        | false => rw [hsup] at hmsg; cases last <;> simp at hmsg
        | true =>
          refine ⟨rfl, fun timeout ht => ?_⟩
          cases hatt : tika_attempt env timeout with
          | error e => exact ⟨e, rfl⟩
          | ok dc =>
            exfalso
            revert hloop
            unfold tika_timeouts at ht ⊢
            simp only [List.mem_cons, List.not_mem_nil, or_false] at ht
            cases hatt1 : tika_attempt env 60 <;>
              cases hatt2 : tika_attempt env 120 <;>
                cases hatt3 : tika_attempt env 240 <;>
                  simp only [tika_loop, hatt1, hatt2, hatt3] <;>
                    intro hl <;>
                      rcases ht with rfl | rfl | rfl <;>
                        simp_all
  · intro ⟨hsup, hall⟩
    obtain ⟨e1, h1⟩ := hall 60 (by simp [tika_timeouts])
    obtain ⟨e2, h2⟩ := hall 120 (by simp [tika_timeouts])
    obtain ⟨e3, h3⟩ := hall 240 (by simp [tika_timeouts])
    refine ⟨"Tika failed to extract supported file: " ++ e3, ?_⟩
    unfold tika_extract tika_timeouts
    simp only [tika_loop, h1, h2, h3, hsup, if_true]
    rfl

end FileBrain
